import Mathlib

/-!
Verification of the plugin-management command module (`src/commands/plugins.rs`)
against its natural-language specification.

The module orchestrates plugin listing, searching, installing, upgrading and
catalogue updating.  Pure data and control flow from the source file are
translated directly; the collaborating `spin_plugins` crate (manifest
predicates, lookup resolver, install planner, installer, update lock) is not
part of the sources, so those pieces are modelled from the specification and
marked as such in their doc comments.  Effectful operations are embedded as
explicit state-passing functions returning `Except` values.
-/

deriving instance DecidableEq for Except

namespace SpinPlugins

/-- A single platform/arch-specific downloadable artifact of a plugin
(`PluginPackage` of the manifest model). -/
structure PluginPackage where
  os : String
  arch : String
  url : String
  sha256 : String
deriving DecidableEq, Repr

/-- Plugin manifest: identity, version, licensing, host-compatibility range and
packages (`PluginManifest` of the manifest model). -/
structure PluginManifest where
  name : String
  version : String
  license : String
  spinCompatibility : String
  description : Option String
  homepage : Option String
  packages : List PluginPackage
deriving DecidableEq, Repr

/-- Three-way compatibility verdict (`PluginCompatibility` in the source). -/
inductive PluginCompatibility where
  | Compatible
  | IncompatibleSpin (range : String)
  | Incompatible
deriving DecidableEq, Repr

/-- Descriptor shown by the list/search commands (`PluginDescriptor` in the
source). -/
structure PluginDescriptor where
  name : String
  version : String
  compatibility : PluginCompatibility
  installed : Bool
  manifest : PluginManifest
deriving DecidableEq, Repr

/-- Where a manifest is looked up (`ManifestLocation`); the
`PluginsRepository` variant folds in the `PluginLookup` name/version pair. -/
inductive ManifestLocation where
  | Local (path : String)
  | Remote (url : String)
  | PluginsRepository (name : String) (version : Option String)
deriving DecidableEq, Repr

/-- Modelled from the spec: the error taxonomy of the `spin_plugins` error
type (section 7), which is not among the sources. -/
inductive Error where
  | NotFound (msg : String)
  | ParseError (msg : String)
  | IncompatibleError (msg : String)
  | DowngradeNotAllowed (msg : String)
  | ChecksumMismatch (msg : String)
  | Io (msg : String)
  | LockDenied (msg : String)
deriving DecidableEq, Repr

/-- Errors surfaced by a whole CLI command: either a plugin-layer error or a
usage error raised directly by the command (the `anyhow` messages in the
source). -/
inductive CmdError where
  | plugin (e : Error)
  | usage (msg : String)
deriving DecidableEq, Repr

/-- Modelled from the spec: the install planner verdict (section 4.3); the
planner itself lives in the `spin_plugins` manager crate, not in the sources. -/
inductive InstallAction where
  | Install
  | NoAction (name : String) (version : String)
deriving DecidableEq, Repr

/-- Ambient facts about the running host used by the compatibility checker:
current platform triple, the running host version (`SPIN_VERSION`) and the
satisfaction relation of version-range expressions (the external semver
collaborator, modelled as an oracle because the spec leaves the range
expression language abstract). -/
structure CompatEnv where
  os : String
  arch : String
  spinVersion : String
  rangeSatisfies : String → String → Bool

/-- Collaborators of the plugin manager that the command module calls
(prompting is the interactive-confirmation collaborator). -/
structure Manager where
  compat : CompatEnv
  promptAnswer : Bool

/-- Observable state threaded through the install workflows: the installed
store (name-keyed manifests) and the console output. -/
structure InstallState where
  installed : List (String × PluginManifest)
  output : List String
deriving DecidableEq, Repr

/-- State touched by the catalogue update operation: whether the update lock
is currently held elsewhere, the mirrored catalogue and the number of
repository fetches performed. -/
structure UpdateState where
  lockHeld : Bool
  mirror : List PluginManifest
  fetchCount : Nat
deriving DecidableEq, Repr

/-! ### Version comparison model -/

/-- Three-way comparison of two linearly ordered values. -/
def cmpOL {α : Type} [LinearOrder α] (a b : α) : Ordering :=
  if a < b then .lt else if a = b then .eq else .gt

/-- Three-way comparison on naturals. -/
def natCmp (a b : Nat) : Ordering := cmpOL a b

/-- Lexicographic three-way comparison of character lists by code point. -/
def charListCmp : List Char → List Char → Ordering
  | [], [] => .eq
  | [], _ :: _ => .lt
  | _ :: _, [] => .gt
  | a :: as, b :: bs => (natCmp a.toNat b.toNat).then (charListCmp as bs)

/-- Total lexicographic order on strings (the `Ord` used by Rust `String`). -/
def strCmp (a b : String) : Ordering := charListCmp a.toList b.toList

/-- Modelled from the spec: the semantic-version value of the external
`semver` collaborator, restricted to the numeric `major.minor.patch` core
(the spec only requires semantic-version ordering of release versions). -/
structure SemVer where
  major : Nat
  minor : Nat
  patch : Nat
deriving DecidableEq, Repr

/-- Split a character list at every dot. -/
def splitDots : List Char → List (List Char)
  | [] => [[]]
  | c :: cs =>
    let rest := splitDots cs
    if c = '.' then [] :: rest
    else
      match rest with
      | r :: rs => (c :: r) :: rs
      | [] => [[c]]

/-- Modelled from the spec: parsing of one numeric semver component (digits
only, no leading zero). -/
def parseSemNum (cs : List Char) : Option Nat :=
  if !cs.isEmpty && cs.all Char.isDigit && (cs == ['0'] || cs.head? != some '0') then
    some (cs.foldl (fun acc c => acc * 10 + (c.toNat - 48)) 0)
  else none

/-- Modelled from the spec: `semver::Version::parse` over the numeric core
`major.minor.patch`. -/
def SemVer.parse (s : String) : Option SemVer :=
  match splitDots s.toList with
  | [a, b, c] =>
    match parseSemNum a, parseSemNum b, parseSemNum c with
    | some x, some y, some z => some (SemVer.mk x y z)
    | _, _, _ => none
  | _ => none

/-- Modelled from the spec: semantic-version ordering (major, then minor,
then patch). -/
def SemVer.cmp (v w : SemVer) : Ordering :=
  (natCmp v.major w.major).then ((natCmp v.minor w.minor).then (natCmp v.patch w.patch))

/-- The version comparison used consistently by the listing comparator and the
install planner: semantic-version order when both strings parse, raw lexical
string order otherwise. -/
def versionCompare (a b : String) : Ordering :=
  match SemVer.parse a, SemVer.parse b with
  | some v, some w => SemVer.cmp v w
  | _, _ => strCmp a b

/-! ### Compatibility checker -/

/-- Modelled from the spec: `PluginManifest::has_compatible_package` (at least
one package whose platform/arch matches the running target, section 4.2); the
manifest methods live outside the sources. -/
def hasCompatiblePackage (env : CompatEnv) (m : PluginManifest) : Bool :=
  m.packages.any (fun p => p.os == env.os && p.arch == env.arch)

/-- Modelled from the spec: `PluginManifest::is_compatible_spin_version` (the
host version satisfies the manifest's declared range, section 4.2). -/
def isCompatibleSpinVersion (env : CompatEnv) (m : PluginManifest) (hostVersion : String) : Bool :=
  env.rangeSatisfies m.spinCompatibility hostVersion

/-- `PluginCompatibility::for_current` from the source: classify a manifest
against the running host. -/
def PluginCompatibility.for_current (env : CompatEnv) (manifest : PluginManifest) :
    PluginCompatibility :=
  if hasCompatiblePackage env manifest then
    if isCompatibleSpinVersion env manifest env.spinVersion then
      .Compatible
    else
      .IncompatibleSpin manifest.spinCompatibility
  else
    .Incompatible

/-- Whether a verdict is the `Compatible` one. -/
def isCompatClass : PluginCompatibility → Bool
  | .Compatible => true
  | _ => false

/-! ### Descriptor comparison, sorting and filtering -/

/-- `PluginDescriptor::cmp` from the source: name first, then the
semver-with-lexical-fallback version comparison. -/
def PluginDescriptor.cmp (self other : PluginDescriptor) : Ordering :=
  let version_cmp :=
    match SemVer.parse self.version, SemVer.parse other.version with
    | some v1, some v2 => SemVer.cmp v1 v2
    | _, _ => strCmp self.version other.version
  (strCmp self.name other.name).then version_cmp

/-- The not-greater relation induced by the listing comparator; `sort_by`
orders ascending with respect to it. -/
def descLe (p q : PluginDescriptor) : Bool :=
  match PluginDescriptor.cmp p q with
  | .gt => false
  | _ => true

/-- Insert an element into a list in front of the first element it is `le`
to (one step of the stable comparison sort modelling Rust `sort_by`). -/
def orderedInsert {α : Type} (le : α → α → Bool) (x : α) : List α → List α
  | [] => [x]
  | y :: ys => if le x y then x :: y :: ys else y :: orderedInsert le x ys

/-- Comparison sort modelling `Vec::sort_by` with the given order. -/
def sortBy {α : Type} (le : α → α → Bool) : List α → List α
  | [] => []
  | x :: xs => orderedInsert le x (sortBy le xs)

/-- Whether `pat` is an initial segment of `l`. -/
def leadMatch : List Char → List Char → Bool
  | [], _ => true
  | _ :: _, [] => false
  | p :: ps, c :: cs => p == c && leadMatch ps cs

/-- Whether `pat` occurs contiguously somewhere in `l`. -/
def subMatch (pat : List Char) : List Char → Bool
  | [] => leadMatch pat []
  | c :: cs => leadMatch pat (c :: cs) || subMatch pat cs

/-- Rust `String::contains`:  `pat` occurs as a substring of `s`. -/
def strContains (s pat : String) : Bool := subMatch pat.toList s.toList

/-! ### The reconciler -/

/-- `merge_plugin_lists` from the source: keep the catalogue list, then append
each installed descriptor whose manifest is not already structurally present. -/
def merge_plugin_lists : List PluginDescriptor → List PluginDescriptor → List PluginDescriptor
  | result, [] => result
  | result, descriptor :: rest =>
    let already_got := result.any (fun desc => desc.manifest == descriptor.manifest)
    merge_plugin_lists (if already_got then result else result ++ [descriptor]) rest

/-- The manifests carried by a descriptor list. -/
def manifestsOf (l : List PluginDescriptor) : List PluginManifest :=
  l.map (fun d => d.manifest)

/-! ### List and search commands -/

/-- The descriptor list a `List` invocation starts from: only the installed
store when `--installed` is given, otherwise the merged catalogue/installed
reconciliation. -/
def basePlugins (installedOnly : Bool) (catalogue installed : List PluginDescriptor) :
    List PluginDescriptor :=
  if installedOnly then installed else merge_plugin_lists catalogue installed

/-- `List::run` from the source (with the catalogue and installed store
abstracted as inputs): sort with the listing comparator, then retain the
descriptors whose name contains the filter. -/
def listRun (installedOnly : Bool) (filter : Option String)
    (catalogue installed : List PluginDescriptor) : List PluginDescriptor :=
  let plugins := basePlugins installedOnly catalogue installed
  let plugins := sortBy descLe plugins
  match filter with
  | some f => plugins.filter (fun p => strContains p.name f)
  | none => plugins

/-- `Search::run` from the source: delegate to `List::run` with
`installed := false` and the same filter. -/
def searchRun (filter : Option String)
    (catalogue installed : List PluginDescriptor) : List PluginDescriptor :=
  listRun false filter catalogue installed

/-! ### Install planner, installer and `try_install` -/

/-- Look up the installed manifest stored under a plugin name. -/
def lookupStore : List (String × PluginManifest) → String → Option PluginManifest
  | [], _ => none
  | (n, m) :: rest, name => if n == name then some m else lookupStore rest name

/-- Modelled from the spec: `PluginManager::check_manifest`, the install
planner of section 4.3 (the manager crate is not among the sources): gate on
the compatibility classification unless overridden, then compare the candidate
version against the installed one with the semver-with-lexical-fallback
comparison; equal means no action, older fails unless downgrades are allowed. -/
def check_manifest (mgr : Manager) (store : List (String × PluginManifest))
    (candidate : PluginManifest) (overrideCompat allowDowngrade : Bool) :
    Except Error InstallAction :=
  if !overrideCompat && !(isCompatClass (PluginCompatibility.for_current mgr.compat candidate)) then
    .error (.IncompatibleError candidate.name)
  else
    match lookupStore store candidate.name with
    | none => .ok .Install
    | some inst =>
      match versionCompare candidate.version inst.version with
      | .gt => .ok .Install
      | .eq => .ok (.NoAction candidate.name candidate.version)
      | .lt =>
        if allowDowngrade then .ok .Install else .error (.DowngradeNotAllowed candidate.name)

/-- Modelled from the spec: `manager::get_package` selects the manifest
package matching the running platform (sections 4.2 and 4.5). -/
def get_package (env : CompatEnv) (manifest : PluginManifest) : Except Error PluginPackage :=
  match manifest.packages.find? (fun p => p.os == env.os && p.arch == env.arch) with
  | some p => .ok p
  | none => .error (.IncompatibleError manifest.name)

/-- `continue_to_install` from the source: proceed when `--yes` was given or
the interactive confirmation answers yes. -/
def continue_to_install (mgr : Manager) (yesToAll : Bool) : Bool :=
  yesToAll || mgr.promptAnswer

/-- Modelled from the spec: `PluginManager::install`, section 4.5 — write the
manifest into the installed store under the plugin's name, replacing any prior
entry, and return the installed display name. -/
def installerInstall (store : List (String × PluginManifest)) (manifest : PluginManifest) :
    String × List (String × PluginManifest) :=
  (manifest.name, (manifest.name, manifest) :: store.filter (fun p => p.1 != manifest.name))

/-- `try_install` from the source: plan via `check_manifest`; report and
return `false` on `NoAction`; otherwise select the package, confirm, and
install, echoing the description and an https homepage. -/
def try_install (mgr : Manager) (manifest : PluginManifest)
    (yesToAll overrideCompat downgrade : Bool) (_source : ManifestLocation)
    (st : InstallState) : Except Error (Bool × InstallState) :=
  match check_manifest mgr st.installed manifest overrideCompat downgrade with
  | .error e => .error e
  | .ok (.NoAction name version) =>
    .ok (false, { st with
      output := st.output ++
        ["Plugin " ++ name ++ " is already installed with version " ++ version ++ "."] })
  | .ok .Install =>
    match get_package mgr.compat manifest with
    | .error e => .error e
    | .ok _package =>
      if continue_to_install mgr yesToAll then
        let (installedName, store2) := installerInstall st.installed manifest
        let out1 := st.output ++ ["Plugin " ++ installedName ++ " was installed successfully!"]
        let out2 :=
          match manifest.description with
          | some d => out1 ++ ["Description:", d]
          | none => out1
        let out3 :=
          match manifest.homepage.filter (fun h => h.startsWith "https://") with
          | some h => out2 ++ ["Homepage:", h]
          | none => out2
        .ok (true, { installed := store2, output := out3 })
      else
        .ok (false, { st with
          output := st.output ++ ["Plugin " ++ manifest.name ++ " will not be installed"] })

/-! ### The install command -/

/-- The manifest-location construction of `Install::run`: exactly one of a
local path, a remote URL, or a plugin name must be supplied. -/
def manifestLocation (localSrc remoteSrc name : Option String) (version : Option String) :
    Except String ManifestLocation :=
  match localSrc, remoteSrc, name with
  | some path, none, none => .ok (.Local path)
  | none, some url, none => .ok (.Remote url)
  | none, none, some n => .ok (.PluginsRepository n version)
  | _, _, _ =>
    .error "For plugin lookup, must provide exactly one of: plugin name, url to manifest, local path to manifest"

/-- `Install::run` from the source (the lookup resolver `getM` abstracted as
an input): build the manifest location, resolve the manifest, and install with
downgrades disallowed. -/
def installRun (mgr : Manager)
    (getM : ManifestLocation → Bool → String → Except Error PluginManifest)
    (localSrc remoteSrc name : Option String) (version : Option String)
    (yesToAll overrideCompat : Bool) (st : InstallState) :
    Except CmdError (Bool × InstallState) :=
  match manifestLocation localSrc remoteSrc name version with
  | .error msg => .error (.usage msg)
  | .ok loc =>
    let downgrade := false
    match getM loc overrideCompat mgr.compat.spinVersion with
    | .error e => .error (.plugin e)
    | .ok manifest =>
      match try_install mgr manifest yesToAll overrideCompat downgrade loc st with
      | .error e => .error (.plugin e)
      | .ok r => .ok r

/-! ### The upgrade command -/

/-- `Upgrade::upgrade_all` from the source (the directory listing abstracted
as the list of installed plugin names): resolve each name from the plugins
repository; a `NotFound` lookup failure is logged and the name skipped, any
other lookup failure or install failure aborts the whole run. -/
def upgrade_all (mgr : Manager)
    (getM : ManifestLocation → Bool → String → Except Error PluginManifest)
    (yesToAll overrideCompat downgrade : Bool) :
    List String → InstallState → Except Error InstallState
  | [], st => .ok st
  | name :: rest, st =>
    let loc := ManifestLocation.PluginsRepository name none
    match getM loc overrideCompat mgr.compat.spinVersion with
    | .error (.NotFound e) =>
      upgrade_all mgr getM yesToAll overrideCompat downgrade rest
        { st with output := st.output ++ ["Could not upgrade plugin " ++ name ++ ": " ++ e] }
    | .error e => .error e
    | .ok manifest =>
      match try_install mgr manifest yesToAll overrideCompat downgrade loc st with
      | .error e => .error e
      | .ok (_, st2) => upgrade_all mgr getM yesToAll overrideCompat downgrade rest st2

/-- The manifest-location resolution of `Upgrade::upgrade_one`: a sole local
path or sole remote URL wins, otherwise the plugin name (required) addresses
the plugins repository. -/
def upgradeLocOf (localSrc remoteSrc name : Option String) (version : Option String) :
    Except CmdError ManifestLocation :=
  match localSrc, remoteSrc with
  | some path, none => .ok (.Local path)
  | none, some url => .ok (.Remote url)
  | _, _ =>
    match name with
    | some n => .ok (.PluginsRepository n version)
    | none => .error (.usage "plugin name is required for upgrades")

/-- `Upgrade::upgrade_one` from the source: resolve the single target and
install it, propagating every failure immediately. -/
def upgrade_one (mgr : Manager)
    (getM : ManifestLocation → Bool → String → Except Error PluginManifest)
    (localSrc remoteSrc name : Option String) (version : Option String)
    (yesToAll overrideCompat downgrade : Bool) (st : InstallState) :
    Except CmdError (Bool × InstallState) :=
  match upgradeLocOf localSrc remoteSrc name version with
  | .error e => .error e
  | .ok loc =>
    match getM loc overrideCompat mgr.compat.spinVersion with
    | .error e => .error (.plugin e)
    | .ok manifest =>
      match try_install mgr manifest yesToAll overrideCompat downgrade loc st with
      | .error e => .error (.plugin e)
      | .ok r => .ok r

/-! ### The update command -/

/-- `update_silent` from the source, with the update-lock guard modelled from
the spec (section 4.4) as a held/free flag and the repository fetch as an
oracle result: a denied acquisition fails without touching the mirror; an
obtained lock is followed by exactly one fetch attempt and is released on
every exit path. -/
def update_silent (fetchResult : Except Error (List PluginManifest)) (st : UpdateState) :
    Except Error Unit × UpdateState :=
  if st.lockHeld then
    (.error (.LockDenied "Another plugin update operation is already in progress"), st)
  else
    match fetchResult with
    | .error e => (.error e, { st with fetchCount := st.fetchCount + 1 })
    | .ok ms => (.ok (), { st with mirror := ms, fetchCount := st.fetchCount + 1 })

/-- Whether an `Error` is the `NotFound` variant. -/
def isNotFoundErr : Error → Bool
  | .NotFound _ => true
  | _ => false

/-- Whether a command result is a failure. -/
def isErrResult {ε α : Type} : Except ε α → Bool
  | .error _ => true
  | .ok _ => false

/-! ### Concrete fixtures used by witnesses and counterexamples -/

/-- A package for the linux/amd64 platform. -/
def pkgLinux : PluginPackage :=
  { os := "linux", arch := "amd64", url := "https://example.com/demo.tar.gz",
    sha256 := "abc123" }

/-- The `demo` plugin at version 1.2.0. -/
def mDemo : PluginManifest :=
  { name := "demo", version := "1.2.0", license := "Apache-2.0",
    spinCompatibility := ">=2.0", description := none, homepage := none,
    packages := [pkgLinux] }

/-- The `demo` plugin at the older version 1.0.0. -/
def mDemoOld : PluginManifest :=
  { mDemo with version := "1.0.0" }

/-- A host environment on linux/amd64 running version 3.0.0 whose range oracle
accepts everything. -/
def compat0 : CompatEnv :=
  { os := "linux", arch := "amd64", spinVersion := "3.0.0",
    rangeSatisfies := fun _ _ => true }

/-- A manager over `compat0` whose confirmation prompt answers yes. -/
def mgr0 : Manager := { compat := compat0, promptAnswer := true }

/-- The catalogue descriptor of `mDemo`. -/
def dDemo : PluginDescriptor :=
  { name := "demo", version := "1.2.0", compatibility := .Compatible,
    installed := false, manifest := mDemo }

/-- A descriptor of name `alpha` at the parseable version 2.0.0. -/
def dV2 : PluginDescriptor :=
  { name := "alpha", version := "2.0.0", compatibility := .Compatible,
    installed := false, manifest := { mDemo with name := "alpha", version := "2.0.0" } }

/-- A descriptor of name `alpha` at the parseable version 10.0.0. -/
def dV10 : PluginDescriptor :=
  { name := "alpha", version := "10.0.0", compatibility := .Compatible,
    installed := false, manifest := { mDemo with name := "alpha", version := "10.0.0" } }

/-- A descriptor of name `alpha` whose version string `1z` does not parse. -/
def dVz : PluginDescriptor :=
  { name := "alpha", version := "1z", compatibility := .Compatible,
    installed := false, manifest := { mDemo with name := "alpha", version := "1z" } }

/-- The empty workflow state. -/
def st0 : InstallState := { installed := [], output := [] }

/-! ### Helper lemmas on orderings -/

theorem ordering_then_of_ne_eq {o₁ o₂ : Ordering} (h : o₁ ≠ .eq) : o₁.then o₂ = o₁ := by
  cases o₁ <;> simp [Ordering.then] at h ⊢

theorem ordering_eq_then (o : Ordering) : Ordering.eq.then o = o := rfl

theorem ordering_then_swap (a b : Ordering) : (a.then b).swap = a.swap.then b.swap := by
  cases a <;> cases b <;> rfl

theorem cmpOL_swap {α : Type} [LinearOrder α] (a b : α) : cmpOL b a = (cmpOL a b).swap := by
  unfold cmpOL
  rcases lt_trichotomy a b with h | h | h
  · rw [if_pos h, if_neg (asymm h), if_neg (ne_of_gt h)]; rfl
  · subst h; rw [if_neg (lt_irrefl a), if_pos rfl]; rfl
  · rw [if_pos h, if_neg (asymm h), if_neg (ne_of_gt h)]; rfl

theorem cmpOL_self {α : Type} [LinearOrder α] (a : α) : cmpOL a a = .eq := by
  unfold cmpOL
  rw [if_neg (lt_irrefl a), if_pos rfl]

theorem natCmp_swap (a b : Nat) : natCmp b a = (natCmp a b).swap := cmpOL_swap a b

theorem charListCmp_cons (a b : Char) (as bs : List Char) :
    charListCmp (a :: as) (b :: bs) = (natCmp a.toNat b.toNat).then (charListCmp as bs) := rfl

theorem charListCmp_swap (a b : List Char) : charListCmp b a = (charListCmp a b).swap := by
  induction a generalizing b with
  | nil => cases b <;> rfl
  | cons x xs ih =>
    cases b with
    | nil => rfl
    | cons y ys =>
      rw [charListCmp_cons, charListCmp_cons, ordering_then_swap, ← natCmp_swap, ← ih ys]

theorem strCmp_swap (a b : String) : strCmp b a = (strCmp a b).swap :=
  charListCmp_swap a.toList b.toList

theorem natCmp_self (a : Nat) : natCmp a a = .eq := cmpOL_self a

theorem charListCmp_self (a : List Char) : charListCmp a a = .eq := by
  induction a with
  | nil => rfl
  | cons x xs ih =>
    rw [charListCmp_cons, natCmp_self x.toNat, ih]
    rfl

theorem strCmp_self (a : String) : strCmp a a = .eq := charListCmp_self a.toList

theorem strCmp_eq_of_eq {a b : String} (h : a = b) : strCmp a b = .eq := by
  subst h; exact strCmp_self a

theorem semVerCmp_swap (v w : SemVer) : SemVer.cmp w v = (SemVer.cmp v w).swap := by
  unfold SemVer.cmp
  rw [ordering_then_swap, ordering_then_swap, ← natCmp_swap, ← natCmp_swap, ← natCmp_swap]

theorem versionCompare_swap (a b : String) : versionCompare b a = (versionCompare a b).swap := by
  unfold versionCompare
  cases ha : SemVer.parse a <;> cases hb : SemVer.parse b <;>
    first
      | exact strCmp_swap a b
      | exact semVerCmp_swap _ _

theorem descCmp_eq_versionCompare (p q : PluginDescriptor) :
    PluginDescriptor.cmp p q =
      (strCmp p.name q.name).then (versionCompare p.version q.version) := rfl

theorem descCmp_swap (p q : PluginDescriptor) :
    PluginDescriptor.cmp q p = (PluginDescriptor.cmp p q).swap := by
  rw [descCmp_eq_versionCompare, descCmp_eq_versionCompare, ordering_then_swap,
    ← strCmp_swap, ← versionCompare_swap]

theorem descLe_total (p q : PluginDescriptor) : descLe p q = true ∨ descLe q p = true := by
  cases h : PluginDescriptor.cmp p q with
  | lt => left; unfold descLe; rw [h]
  | eq => left; unfold descLe; rw [h]
  | gt => right; unfold descLe; rw [descCmp_swap, h]; rfl

/-! ### Helper lemmas on the sort -/

theorem orderedInsert_nil {α : Type} (le : α → α → Bool) (x : α) :
    orderedInsert le x [] = [x] := rfl

theorem orderedInsert_cons {α : Type} (le : α → α → Bool) (x y : α) (ys : List α) :
    orderedInsert le x (y :: ys) =
      if le x y then x :: y :: ys else y :: orderedInsert le x ys := rfl

theorem sortBy_nil {α : Type} (le : α → α → Bool) : sortBy le [] = [] := rfl

theorem sortBy_cons {α : Type} (le : α → α → Bool) (x : α) (xs : List α) :
    sortBy le (x :: xs) = orderedInsert le x (sortBy le xs) := rfl

theorem mem_orderedInsert {α : Type} (le : α → α → Bool) (x a : α) (l : List α) :
    a ∈ orderedInsert le x l ↔ a = x ∨ a ∈ l := by
  induction l with
  | nil => rw [orderedInsert_nil]; simp
  | cons y ys ih =>
    by_cases h : le x y = true
    · rw [orderedInsert_cons, if_pos h]
      simp [List.mem_cons]
    · rw [orderedInsert_cons, if_neg h]
      simp only [List.mem_cons, ih]
      tauto

theorem mem_sortBy {α : Type} (le : α → α → Bool) (a : α) (l : List α) :
    a ∈ sortBy le l ↔ a ∈ l := by
  induction l with
  | nil => rw [sortBy_nil]
  | cons x xs ih =>
    rw [sortBy_cons, mem_orderedInsert, ih]
    simp [List.mem_cons]

theorem pairwise_orderedInsert {α : Type} (le : α → α → Bool)
    (total : ∀ a b : α, le a b = true ∨ le b a = true)
    (x : α) (l L : List α) (hsub : ∀ a, a ∈ l → a ∈ L) (hx : x ∈ L)
    (htrans : ∀ a b c, a ∈ L → b ∈ L → c ∈ L →
      le a b = true → le b c = true → le a c = true)
    (hp : l.Pairwise (fun a b => le a b = true)) :
    (orderedInsert le x l).Pairwise (fun a b => le a b = true) := by
  induction l with
  | nil => rw [orderedInsert_nil]; simp
  | cons y ys ih =>
    rcases List.pairwise_cons.mp hp with ⟨hy, hys⟩
    by_cases h : le x y = true
    · rw [orderedInsert_cons, if_pos h]
      refine List.pairwise_cons.mpr ⟨?_, hp⟩
      intro b hb
      rcases List.mem_cons.mp hb with hb | hb
      · subst hb; exact h
      · exact htrans x y b hx (hsub y (List.mem_cons_self y ys)) (hsub b (List.mem_cons_of_mem y hb)) h (hy b hb)
    · rw [orderedInsert_cons, if_neg h]
      refine List.pairwise_cons.mpr ⟨?_, ?_⟩
      · intro b hb
        rcases (mem_orderedInsert le x b ys).mp hb with hb | hb
        · rw [hb]
          rcases total x y with htot | htot
          · exact absurd htot h
          · exact htot
        · exact hy b hb
      · exact ih (fun a ha => hsub a (List.mem_cons_of_mem y ha)) hys

theorem pairwise_sortBy {α : Type} (le : α → α → Bool)
    (total : ∀ a b : α, le a b = true ∨ le b a = true)
    (l : List α)
    (htrans : ∀ a b c, a ∈ l → b ∈ l → c ∈ l →
      le a b = true → le b c = true → le a c = true) :
    (sortBy le l).Pairwise (fun a b => le a b = true) := by
  induction l with
  | nil => rw [sortBy_nil]; exact List.Pairwise.nil
  | cons x xs ih =>
    rw [sortBy_cons]
    refine pairwise_orderedInsert le total x (sortBy le xs) (x :: xs) ?_ (List.mem_cons_self x xs) htrans ?_
    · intro a ha
      exact List.mem_cons_of_mem x ((mem_sortBy le a xs).mp ha)
    · exact ih (fun a b c ha hb hc => htrans a b c (List.mem_cons_of_mem x ha)
        (List.mem_cons_of_mem x hb) (List.mem_cons_of_mem x hc))

/-! ### Helper lemmas on the reconciler -/

theorem manifestsOf_mem_iff (l : List PluginDescriptor) (m : PluginManifest) :
    m ∈ manifestsOf l ↔ ∃ d ∈ l, d.manifest = m := by
  simp [manifestsOf, List.mem_map]

theorem merge_any_iff (a : List PluginDescriptor) (d : PluginDescriptor) :
    (a.any (fun desc => desc.manifest == d.manifest) = true) ↔ d.manifest ∈ manifestsOf a := by
  rw [List.any_eq_true]
  constructor
  · rintro ⟨x, hx, hbeq⟩
    exact (manifestsOf_mem_iff a d.manifest).mpr ⟨x, hx, eq_of_beq hbeq⟩
  · intro hm
    rcases (manifestsOf_mem_iff a d.manifest).mp hm with ⟨x, hx, hxm⟩
    exact ⟨x, hx, beq_iff_eq.mpr hxm⟩

theorem merge_nil (a : List PluginDescriptor) : merge_plugin_lists a [] = a := rfl

theorem merge_cons (a : List PluginDescriptor) (d : PluginDescriptor)
    (rest : List PluginDescriptor) :
    merge_plugin_lists a (d :: rest) =
      merge_plugin_lists
        (if a.any (fun desc => desc.manifest == d.manifest) then a else a ++ [d]) rest := rfl

theorem merge_mem_manifest (b a : List PluginDescriptor) (m : PluginManifest) :
    m ∈ manifestsOf (merge_plugin_lists a b) ↔ m ∈ manifestsOf a ∨ m ∈ manifestsOf b := by
  induction b generalizing a with
  | nil =>
    rw [merge_nil]
    simp [manifestsOf]
  | cons d rest ih =>
    rw [merge_cons]
    by_cases h : a.any (fun desc => desc.manifest == d.manifest) = true
    · rw [if_pos h, ih]
      have hd : d.manifest ∈ manifestsOf a := (merge_any_iff a d).mp h
      have hm : m ∈ manifestsOf (d :: rest) ↔ m = d.manifest ∨ m ∈ manifestsOf rest := by
        simp [manifestsOf, eq_comm]
      rw [hm]
      constructor
      · rintro (hx | hx)
        · exact Or.inl hx
        · exact Or.inr (Or.inr hx)
      · rintro (hx | hx | hx)
        · exact Or.inl hx
        · exact Or.inl (hx ▸ hd)
        · exact Or.inr hx
    · rw [if_neg h, ih]
      have ha : m ∈ manifestsOf (a ++ [d]) ↔ m ∈ manifestsOf a ∨ m = d.manifest := by
        simp [manifestsOf, eq_comm]
      have hr : m ∈ manifestsOf (d :: rest) ↔ m = d.manifest ∨ m ∈ manifestsOf rest := by
        simp [manifestsOf, eq_comm]
      rw [ha, hr]
      tauto

theorem merge_nodup (b a : List PluginDescriptor)
    (h : (manifestsOf a).Nodup) : (manifestsOf (merge_plugin_lists a b)).Nodup := by
  induction b generalizing a with
  | nil => rw [merge_nil]; exact h
  | cons d rest ih =>
    rw [merge_cons]
    by_cases hg : a.any (fun desc => desc.manifest == d.manifest) = true
    · rw [if_pos hg]; exact ih a h
    · rw [if_neg hg]
      refine ih (a ++ [d]) ?_
      have hnot : d.manifest ∉ manifestsOf a := fun hc => hg ((merge_any_iff a d).mpr hc)
      have hsplit : manifestsOf (a ++ [d]) = manifestsOf a ++ [d.manifest] := by
        simp [manifestsOf]
      rw [hsplit]
      simp only [List.nodup_append, List.nodup_singleton, true_and]
      refine ⟨h, ?_⟩
      intro x hx hxd
      simp only [List.mem_singleton] at hxd
      exact hnot (hxd ▸ hx)

/-- A host environment whose range oracle rejects every range/version pair. -/
def compatReject : CompatEnv :=
  { os := "linux", arch := "amd64", spinVersion := "3.0.0",
    rangeSatisfies := fun _ _ => false }

/-- The `demo` manifest with its package list emptied. -/
def mNoPkg : PluginManifest := { mDemo with packages := [] }

/-- A state in which `demo` version 1.2.0 is installed. -/
def stDemo : InstallState := { installed := [("demo", mDemo)], output := [] }

/-- An update state whose lock is currently held. -/
def stLocked : UpdateState := { lockHeld := true, mirror := [], fetchCount := 0 }

/-- An update state whose lock is free. -/
def stFree : UpdateState := { lockHeld := false, mirror := [], fetchCount := 0 }

/-- A resolver that always answers with the old `demo` manifest. -/
def getMOld : ManifestLocation → Bool → String → Except Error PluginManifest :=
  fun _ _ _ => .ok mDemoOld

/-- A resolver failing with an `Io` error for plugin `a` and succeeding
otherwise. -/
def getMIo : ManifestLocation → Bool → String → Except Error PluginManifest :=
  fun loc _ _ =>
    match loc with
    | .PluginsRepository n _ => if n == "a" then .error (.Io "disk") else .ok mDemo
    | _ => .ok mDemo

/-- A resolver that always fails with `NotFound`. -/
def getMNf : ManifestLocation → Bool → String → Except Error PluginManifest :=
  fun _ _ _ => .error (.NotFound "gone")

/-- A resolver that always answers with the `demo` manifest. -/
def getMOk : ManifestLocation → Bool → String → Except Error PluginManifest :=
  fun _ _ _ => .ok mDemo

/-- A manager over the range-rejecting host, so every non-overridden install
fails its compatibility gate. -/
def mgrReject : Manager := { compat := compatReject, promptAnswer := true }

/-! ### Claim C1 -/

/-- Claim C1: `PluginCompatibility::for_current` is the three-way verdict —
no package matching the running platform gives `Incompatible` regardless of
host version; a matching package with the host version outside the declared
range gives `IncompatibleSpin` carrying the required range; otherwise
`Compatible`. -/
theorem claim_c1_for_current_three_way (env : CompatEnv) (m : PluginManifest) :
    (hasCompatiblePackage env m = false →
      PluginCompatibility.for_current env m = .Incompatible) ∧
    (hasCompatiblePackage env m = true →
      isCompatibleSpinVersion env m env.spinVersion = false →
      PluginCompatibility.for_current env m = .IncompatibleSpin m.spinCompatibility) ∧
    (hasCompatiblePackage env m = true →
      isCompatibleSpinVersion env m env.spinVersion = true →
      PluginCompatibility.for_current env m = .Compatible) := by
  refine ⟨?_, ?_, ?_⟩
  · intro h
    simp [PluginCompatibility.for_current, h]
  · intro h1 h2
    simp [PluginCompatibility.for_current, h1, h2]
  · intro h1 h2
    simp [PluginCompatibility.for_current, h1, h2]

/-- Witness instantiating claim C1 on concrete manifests and hosts. -/
theorem claim_c1_witness :
    PluginCompatibility.for_current compat0 mNoPkg = .Incompatible ∧
    PluginCompatibility.for_current compatReject mDemo =
      .IncompatibleSpin mDemo.spinCompatibility ∧
    PluginCompatibility.for_current compat0 mDemo = .Compatible :=
  ⟨(claim_c1_for_current_three_way compat0 mNoPkg).1 (by decide),
   (claim_c1_for_current_three_way compatReject mDemo).2.1 (by decide) (by decide),
   (claim_c1_for_current_three_way compat0 mDemo).2.2 (by decide) (by decide)⟩

/-! ### Claim C4 -/

/-- Claim C4: the listing comparison orders by name first; with equal names it
orders by semantic-version order when both version strings parse as semver and
by raw lexical string comparison when either fails to parse. -/
theorem claim_c4_descriptor_cmp (p q : PluginDescriptor) :
    (strCmp p.name q.name ≠ .eq →
      PluginDescriptor.cmp p q = strCmp p.name q.name) ∧
    (∀ v w, p.name = q.name → SemVer.parse p.version = some v →
      SemVer.parse q.version = some w →
      PluginDescriptor.cmp p q = SemVer.cmp v w) ∧
    (p.name = q.name →
      (SemVer.parse p.version = none ∨ SemVer.parse q.version = none) →
      PluginDescriptor.cmp p q = strCmp p.version q.version) := by
  refine ⟨?_, ?_, ?_⟩
  · intro h
    rw [descCmp_eq_versionCompare, ordering_then_of_ne_eq h]
  · intro v w hn hp hq
    rw [descCmp_eq_versionCompare, strCmp_eq_of_eq hn, ordering_eq_then]
    unfold versionCompare
    rw [hp, hq]
  · intro hn hpq
    rw [descCmp_eq_versionCompare, strCmp_eq_of_eq hn, ordering_eq_then]
    unfold versionCompare
    rcases hpq with h | h
    · rw [h]
    · rw [h]
      cases h2 : SemVer.parse p.version <;> rfl

/-- Witness instantiating claim C4 on concrete descriptors: distinct names,
equal names with two parseable versions, and equal names with an unparseable
version. -/
theorem claim_c4_witness :
    PluginDescriptor.cmp dV2 dDemo = strCmp dV2.name dDemo.name ∧
    PluginDescriptor.cmp dV2 dV10 = SemVer.cmp ⟨2, 0, 0⟩ ⟨10, 0, 0⟩ ∧
    PluginDescriptor.cmp dV2 dVz = strCmp dV2.version dVz.version :=
  ⟨(claim_c4_descriptor_cmp dV2 dDemo).1 (by decide),
   (claim_c4_descriptor_cmp dV2 dV10).2.1 ⟨2, 0, 0⟩ ⟨10, 0, 0⟩ (by decide)
     (by decide) (by decide),
   (claim_c4_descriptor_cmp dV2 dVz).2.2 (by decide) (Or.inr (by decide))⟩

/-! ### Claim C5 -/

/-- Claim C5: a catalogue update attempt while the update lock is already held
fails naming an in-progress update and leaves the state (mirror and fetch
count) untouched; the repository fetch happens only after a non-denied lock
acquisition. -/
theorem claim_c5_update_lock_denied (fetch : Except Error (List PluginManifest))
    (st : UpdateState) :
    (st.lockHeld = true →
      update_silent fetch st =
        (.error (.LockDenied "Another plugin update operation is already in progress"), st)) ∧
    (st.lockHeld = false →
      (update_silent fetch st).2.fetchCount = st.fetchCount + 1) := by
  constructor
  · intro h
    simp [update_silent, h]
  · intro h
    cases fetch <;> simp [update_silent, h]

/-- Witness instantiating claim C5 on a held and on a free lock. -/
theorem claim_c5_witness :
    update_silent (.ok [mDemo]) stLocked =
      (.error (.LockDenied "Another plugin update operation is already in progress"),
        stLocked) ∧
    (update_silent (.ok [mDemo]) stFree).2.fetchCount = stFree.fetchCount + 1 :=
  ⟨(claim_c5_update_lock_denied (.ok [mDemo]) stLocked).1 rfl,
   (claim_c5_update_lock_denied (.ok [mDemo]) stFree).2 rfl⟩

/-! ### Claim C6 -/

/-- Claim C6: whenever the planner answers `NoAction {name, version}`,
`try_install` performs no installation — the installed store is unchanged and
the installer is never reached — reports the plugin as already installed with
its name and version, and returns `false`. -/
theorem claim_c6_try_install_noaction (mgr : Manager) (m : PluginManifest)
    (yes ov dg : Bool) (src : ManifestLocation) (st : InstallState) (n v : String)
    (h : check_manifest mgr st.installed m ov dg = .ok (.NoAction n v)) :
    try_install mgr m yes ov dg src st =
      .ok (false, { st with output := st.output ++
        ["Plugin " ++ n ++ " is already installed with version " ++ v ++ "."] }) := by
  unfold try_install
  rw [h]

/-- Witness instantiating claim C6 on the spec scenario: `demo` 1.2.0
installed and the same version offered again. -/
theorem claim_c6_witness :
    try_install mgr0 mDemo true false false (.PluginsRepository "demo" none) stDemo =
      .ok (false, { stDemo with output := stDemo.output ++
        ["Plugin " ++ "demo" ++ " is already installed with version " ++ "1.2.0" ++ "."] }) :=
  claim_c6_try_install_noaction mgr0 mDemo true false false
    (.PluginsRepository "demo" none) stDemo "demo" "1.2.0" (by decide)

/-! ### Claim C7 -/

/-- Claim C7: manifest-location construction in the install command accepts
exactly one source — a sole local path gives `Local`, a sole URL gives
`Remote`, a sole name gives `PluginsRepository` with the optional version —
and every other combination fails. -/
theorem claim_c7_manifest_location (l r n v : Option String) :
    (∀ p, l = some p → r = none → n = none →
      manifestLocation l r n v = .ok (.Local p)) ∧
    (∀ u, l = none → r = some u → n = none →
      manifestLocation l r n v = .ok (.Remote u)) ∧
    (∀ nm, l = none → r = none → n = some nm →
      manifestLocation l r n v = .ok (.PluginsRepository nm v)) ∧
    (¬ ((l.isSome = true ∧ r = none ∧ n = none) ∨
        (l = none ∧ r.isSome = true ∧ n = none) ∨
        (l = none ∧ r = none ∧ n.isSome = true)) →
      ∃ msg, manifestLocation l r n v = .error msg) := by
  refine ⟨?_, ?_, ?_, ?_⟩
  · rintro p rfl rfl rfl; rfl
  · rintro u rfl rfl rfl; rfl
  · rintro nm rfl rfl rfl; rfl
  · intro h
    cases l <;> cases r <;> cases n <;>
      first
        | exact ⟨_, rfl⟩
        | exact absurd (by simp) h

/-- Witness instantiating claim C7: each single-source case and one ambiguous
combination. -/
theorem claim_c7_witness :
    manifestLocation (some "p") none none none = .ok (.Local "p") ∧
    manifestLocation none (some "u") none none = .ok (.Remote "u") ∧
    manifestLocation none none (some "demo") (some "1.0.0") =
      .ok (.PluginsRepository "demo" (some "1.0.0")) ∧
    ∃ msg, manifestLocation (some "p") (some "u") none none = .error msg :=
  ⟨(claim_c7_manifest_location (some "p") none none none).1 "p" rfl rfl rfl,
   (claim_c7_manifest_location none (some "u") none none).2.1 "u" rfl rfl rfl,
   (claim_c7_manifest_location none none (some "demo") (some "1.0.0")).2.2.1 "demo" rfl rfl rfl,
   (claim_c7_manifest_location (some "p") (some "u") none none).2.2.2 (by simp)⟩

/-! ### Claim C10 -/

/-- Claim C10: for every filter, the search command is observationally the
list command run with `installed = false` and that filter. -/
theorem claim_c10_search_eq_list (f : Option String)
    (catalogue installed : List PluginDescriptor) :
    searchRun f catalogue installed = listRun false f catalogue installed := rfl

/-! ### Claim C2 -/

theorem upgrade_all_cons (mgr : Manager)
    (getM : ManifestLocation → Bool → String → Except Error PluginManifest)
    (yes ov dg : Bool) (name : String) (rest : List String) (st : InstallState) :
    upgrade_all mgr getM yes ov dg (name :: rest) st =
      match getM (.PluginsRepository name none) ov mgr.compat.spinVersion with
      | .error (.NotFound e) =>
        upgrade_all mgr getM yes ov dg rest
          { st with output := st.output ++ ["Could not upgrade plugin " ++ name ++ ": " ++ e] }
      | .error e => .error e
      | .ok manifest =>
        match try_install mgr manifest yes ov dg (.PluginsRepository name none) st with
        | .error e => .error e
        | .ok (_, st2) => upgrade_all mgr getM yes ov dg rest st2 := rfl

/-- Claim C2 counterexample: in the upgrade-all path a candidate whose
manifest lookup fails with an `Io` error (any non-`NotFound` kind) aborts the
whole run — plugin `b` is never processed — contradicting the claim that
every per-candidate failure is caught, logged and skipped. -/
theorem claim_c2_cex :
    upgrade_all mgr0 getMIo true false false ["a", "b"] st0 = .error (.Io "disk") := by
  decide

/-- Claim C2 (amended): in the upgrade-all path only a `NotFound` manifest
lookup failure is logged and skipped with the remaining candidates still
processed; any other lookup failure, and any install failure, aborts the run
immediately — as does any candidate failure in the single-target upgrade-one
path. -/
theorem claim_c2_upgrade_failure_policy (mgr : Manager)
    (getM : ManifestLocation → Bool → String → Except Error PluginManifest)
    (yes ov dg : Bool) (name : String) (rest : List String) (st : InstallState) :
    (∀ e, getM (.PluginsRepository name none) ov mgr.compat.spinVersion =
        .error (.NotFound e) →
      upgrade_all mgr getM yes ov dg (name :: rest) st =
        upgrade_all mgr getM yes ov dg rest
          { st with output := st.output ++
            ["Could not upgrade plugin " ++ name ++ ": " ++ e] }) ∧
    (∀ e, isNotFoundErr e = false →
      getM (.PluginsRepository name none) ov mgr.compat.spinVersion = .error e →
      upgrade_all mgr getM yes ov dg (name :: rest) st = .error e) ∧
    (∀ m e, getM (.PluginsRepository name none) ov mgr.compat.spinVersion = .ok m →
      try_install mgr m yes ov dg (.PluginsRepository name none) st = .error e →
      upgrade_all mgr getM yes ov dg (name :: rest) st = .error e) ∧
    (∀ lsrc rsrc nm ver loc e, upgradeLocOf lsrc rsrc nm ver = .ok loc →
      getM loc ov mgr.compat.spinVersion = .error e →
      upgrade_one mgr getM lsrc rsrc nm ver yes ov dg st = .error (.plugin e)) ∧
    (∀ lsrc rsrc nm ver loc m e, upgradeLocOf lsrc rsrc nm ver = .ok loc →
      getM loc ov mgr.compat.spinVersion = .ok m →
      try_install mgr m yes ov dg loc st = .error e →
      upgrade_one mgr getM lsrc rsrc nm ver yes ov dg st = .error (.plugin e)) := by
  refine ⟨?_, ?_, ?_, ?_, ?_⟩
  · intro e h
    rw [upgrade_all_cons, h]
  · intro e hnf h
    rw [upgrade_all_cons, h]
    cases e <;> first
      | rfl
      | (simp [isNotFoundErr] at hnf)
  · intro m e hm hti
    rw [upgrade_all_cons]
    simp only [hm, hti]
  · intro lsrc rsrc nm ver loc e hloc hm
    simp only [upgrade_one, hloc, hm]
  · intro lsrc rsrc nm ver loc m e hloc hm hti
    simp only [upgrade_one, hloc, hm, hti]

/-- Witness instantiating the amended claim C2: a `NotFound` failure is
skipped with the log line appended in upgrade-all, while the same lookup
failure — and an install-phase failure — each abort upgrade-one. -/
theorem claim_c2_witness :
    upgrade_all mgr0 getMNf true false false ["x"] st0 =
      upgrade_all mgr0 getMNf true false false []
        { st0 with output := st0.output ++ ["Could not upgrade plugin " ++ "x" ++ ": " ++ "gone"] } ∧
    upgrade_one mgr0 getMNf none none (some "x") none true false false st0 =
      .error (.plugin (.NotFound "gone")) ∧
    upgrade_one mgrReject getMOk none none (some "demo") none true false false st0 =
      .error (.plugin (.IncompatibleError "demo")) :=
  ⟨(claim_c2_upgrade_failure_policy mgr0 getMNf true false false "x" [] st0).1 "gone" rfl,
   (claim_c2_upgrade_failure_policy mgr0 getMNf true false false "x" [] st0).2.2.2.1
     none none (some "x") none (.PluginsRepository "x" none) (.NotFound "gone") rfl rfl,
   (claim_c2_upgrade_failure_policy mgrReject getMOk true false false "demo" [] st0).2.2.2.2
     none none (some "demo") none (.PluginsRepository "demo" none) mDemo
     (.IncompatibleError "demo") rfl rfl (by decide)⟩

/-! ### Claim C3 -/

/-- Claim C3 counterexample: two descriptors with structurally equal manifests
that are both already in the catalogue list survive merging and appear twice,
not once, in the merged result (the loop only dedups the installed list
against the accumulated result). -/
theorem claim_c3_cex :
    merge_plugin_lists [dDemo, dDemo] [] = [dDemo, dDemo] ∧
    (merge_plugin_lists [dDemo, dDemo] []).count dDemo = 2 := by
  decide

/-- Claim C3 (amended): provided the catalogue list itself carries no
duplicate manifests, `merge_plugin_lists` dedups exactly by structural
manifest equality — every manifest appears at most once in the merged result,
and a manifest appears there iff it appears in the catalogue or the installed
list; in particular two descriptors with identical name and version but
differing manifest content both remain present as distinct entries. -/
theorem claim_c3_merge_dedup (a b : List PluginDescriptor)
    (h : (manifestsOf a).Nodup) :
    (manifestsOf (merge_plugin_lists a b)).Nodup ∧
    (∀ m, m ∈ manifestsOf (merge_plugin_lists a b) ↔
      m ∈ manifestsOf a ∨ m ∈ manifestsOf b) :=
  ⟨merge_nodup b a h, fun m => merge_mem_manifest b a m⟩

/-- Witness instantiating the amended claim C3 on a concrete catalogue and
installed list. -/
theorem claim_c3_witness :
    (manifestsOf (merge_plugin_lists [dDemo] [dVz])).Nodup ∧
    (dVz.manifest ∈ manifestsOf (merge_plugin_lists [dDemo] [dVz]) ↔
      dVz.manifest ∈ manifestsOf [dDemo] ∨ dVz.manifest ∈ manifestsOf [dVz]) :=
  ⟨(claim_c3_merge_dedup [dDemo] [dVz] (by decide)).1,
   (claim_c3_merge_dedup [dDemo] [dVz] (by decide)).2 dVz.manifest⟩

/-! ### Claim C8 -/

/-- Claim C8 counterexample: with equal-name descriptors mixing parseable and
unparseable version strings the listing comparison is not transitive, and the
sorted-and-filtered list output violates the claimed order — the first output
entry compares greater than the last one under the listing comparison. -/
theorem claim_c8_cex :
    listRun false (some "") [dV2, dV10, dVz] [] = [dV2, dV10, dVz] ∧
    PluginDescriptor.cmp dV2 dVz = .gt ∧
    ¬ (listRun false (some "") [dV2, dV10, dVz] []).Pairwise
        (fun p q => descLe p q = true) := by
  refine ⟨by decide, by decide, ?_⟩
  intro hp
  have hsub : List.Sublist [dV2, dVz] (listRun false (some "") [dV2, dV10, dVz] []) := by
    decide
  have h1 : descLe dV2 dVz = true := by
    have h2 := List.Pairwise.sublist hsub hp
    exact (List.pairwise_cons.mp h2).1 dVz (by decide)
  exact absurd h1 (by decide)

/-- Claim C8 (amended): for every filter string the list operation outputs
exactly the descriptors whose name contains the filter, in the order produced
by the listing sort; provided the listing comparison is transitive on the
candidate descriptors (e.g. when all their version strings parse as semver),
that output is sorted ascending under the listing comparison. -/
theorem claim_c8_list_filter_sorted (installedOnly : Bool) (f : String)
    (catalogue installed : List PluginDescriptor) :
    (∀ d, d ∈ listRun installedOnly (some f) catalogue installed ↔
      d ∈ basePlugins installedOnly catalogue installed ∧ strContains d.name f = true) ∧
    ((∀ a b c, a ∈ basePlugins installedOnly catalogue installed →
        b ∈ basePlugins installedOnly catalogue installed →
        c ∈ basePlugins installedOnly catalogue installed →
        descLe a b = true → descLe b c = true → descLe a c = true) →
      (listRun installedOnly (some f) catalogue installed).Pairwise
        (fun p q => descLe p q = true)) := by
  have hrun : listRun installedOnly (some f) catalogue installed =
      (sortBy descLe (basePlugins installedOnly catalogue installed)).filter
        (fun p => strContains p.name f) := rfl
  constructor
  · intro d
    rw [hrun, List.mem_filter, mem_sortBy]
  · intro htrans
    rw [hrun]
    exact List.Pairwise.sublist (List.filter_sublist _)
      (pairwise_sortBy descLe descLe_total _ htrans)

/-- Witness instantiating the amended claim C8 on a concrete catalogue. -/
theorem claim_c8_witness :
    (dDemo ∈ listRun false (some "de") [dDemo] [] ↔
      dDemo ∈ basePlugins false [dDemo] [] ∧ strContains dDemo.name "de" = true) ∧
    (listRun false (some "de") [dDemo] []).Pairwise (fun p q => descLe p q = true) := by
  have h := claim_c8_list_filter_sorted false "de" [dDemo] []
  refine ⟨h.1 dDemo, h.2 ?_⟩
  intro a b c ha hb hc hab hbc
  have ha2 : a = dDemo := by
    have hmem : a ∈ [dDemo] := ha
    simpa using hmem
  have hc2 : c = dDemo := by
    have hmem : c ∈ [dDemo] := hc
    simpa using hmem
  rw [ha2, hc2]
  decide

/-! ### Claim C9 -/

/-- Claim C9: the install command always plans with downgrades disallowed
(`allow_downgrade = false`), for every combination of its other inputs, so
whenever the resolved candidate manifest is older than the installed version
the run fails — a downgrade can never be installed through `install`. -/
theorem claim_c9_install_no_downgrade (mgr : Manager)
    (getM : ManifestLocation → Bool → String → Except Error PluginManifest)
    (lsrc rsrc nm ver : Option String) (yes ov : Bool) (st : InstallState)
    (h : ∀ loc m, manifestLocation lsrc rsrc nm ver = .ok loc →
      getM loc ov mgr.compat.spinVersion = .ok m →
      ∃ im, lookupStore st.installed m.name = some im ∧
        versionCompare m.version im.version = .lt) :
    isErrResult (installRun mgr getM lsrc rsrc nm ver yes ov st) = true := by
  unfold installRun
  cases hloc : manifestLocation lsrc rsrc nm ver with
  | error msg => rfl
  | ok loc =>
    cases hm : getM loc ov mgr.compat.spinVersion with
    | error e => simp only [hm]; rfl
    | ok m =>
      rcases h loc m hloc hm with ⟨im, hlk, hlt⟩
      have hcm : ∃ e, check_manifest mgr st.installed m ov false = .error e := by
        unfold check_manifest
        by_cases hgate :
          (!ov && !(isCompatClass (PluginCompatibility.for_current mgr.compat m))) = true
        · rw [if_pos hgate]
          exact ⟨_, rfl⟩
        · rw [if_neg hgate]
          refine ⟨Error.DowngradeNotAllowed m.name, ?_⟩
          simp [hlk, hlt]
      rcases hcm with ⟨e, hcm⟩
      have hti : try_install mgr m yes ov false loc st = .error e := by
        unfold try_install
        rw [hcm]
      simp only [hm, hti]
      rfl

/-- Witness instantiating claim C9: with `demo` 1.2.0 installed, installing
`demo` resolving to 1.0.0 fails even with every flag set permissively. -/
theorem claim_c9_witness :
    isErrResult (installRun mgr0 getMOld none none (some "demo") none true false stDemo) =
      true :=
  claim_c9_install_no_downgrade mgr0 getMOld none none (some "demo") none true false stDemo
    (by
      intro loc m hloc hm
      have h2 : mDemoOld = m := Except.ok.inj hm
      rw [← h2]
      exact ⟨mDemo, by decide, by decide⟩)

end SpinPlugins
